import Mathlib

/-!
# Verification of the `config-binder` binding engine

Shallow embedding of `src/config_binder/binder.py` (class `ConfigBinder`):
the recursive type-directed binding engine that coerces an untyped parsed
document tree into instances of a caller-supplied schema.

Modelling conventions:
* Python untyped data values are `PyVal` (null / bool / int / float / str /
  list / tuple / set / dict); Python floats are modelled as exact rationals
  (`Rat`): none of the verified properties depend on binary rounding.
* Python type descriptors are `Ty`: the five entries of the module-level
  `primitive_types` list, user schema classes (an ordered field list, the
  result of `get_type_hints`), `list`/`set`/`tuple`/`dict` generics,
  `Literal[...]` and `Union[...]`.
* A raised exception is modelled as `Except.error` carrying an `Err`; the
  constructors of `Err` correspond one-to-one to the distinct `raise`
  sites reachable during binding (plus the native `AttributeError` /
  `TypeError` that escape from `.get`/iteration on an incompatible value).
* Python builtins (`str`, `float`, `sorted`, `ast.literal_eval`) are
  modelled by executable Lean functions documented at their definitions.
-/

/-- The five entries of the module-level list
`primitive_types = [bool, int, float, NoneType, str]` (binder.py line 18),
in that order. -/
inductive Prim where
  | boolP
  | intP
  | floatP
  | noneP
  | strP
deriving DecidableEq, Repr

/-- Position of a primitive type in the `primitive_types` list; this is the
key `primitive_types.index(t)` used by `__bind_union` to sort primitive
union alternatives. -/
def primIndex : Prim → Nat
  | .boolP => 0
  | .intP => 1
  | .floatP => 2
  | .noneP => 3
  | .strP => 4

/-- An untyped Python value as produced by the document loader and consumed
(and produced) by the binding engine.  `obj` is a bound schema-class
instance: its ordered field assignments (the `kw_fields` dict of
`__bind_class`). Python floats are modelled as exact rationals. -/
inductive PyVal where
  | none
  | bool (b : Bool)
  | int (n : Int)
  | float (q : Rat)
  | str (s : String)
  | list (xs : List PyVal)
  | tuple (xs : List PyVal)
  | set (xs : List PyVal)
  | dict (entries : List (String × PyVal))
  | obj (fields : List (String × PyVal))

/-- A type descriptor: the argument `clazz` / `field_type` of the binder's
methods.  `obj` is a schema class described by its ordered
`get_type_hints` field list; `lit` is `Literal[...]` with its allowed
values; `union` is `Union[...]` with its declared alternatives. -/
inductive Ty where
  | prim (p : Prim)
  | obj (fields : List (String × Ty))
  | listT (item : Ty)
  | setT (item : Ty)
  | tupleT (args : List Ty)
  | dictT (key value : Ty)
  | lit (args : List PyVal)
  | union (alts : List Ty)

/-- Errors raised during binding.  `cannotBindValue`, `cannotBindLiteral`,
`cannotBindUnion` and `onlyStrKeys` are the four explicit
`raise ValidationError` sites of binder.py; `fieldFailed` is the per-field
re-wrap of `__bind_class` (line 128); `attributeError` / `typeError` model
the native exceptions escaping from `.get`/`.items()` on a non-dict and
from iterating a non-iterable; `typeHintsError` models `get_type_hints`
failing when `__bind_class` is applied to a non-class descriptor. -/
inductive Err where
  | cannotBindValue (value : String) (tyName : String)
  | cannotBindLiteral (value : String) (allowed : List PyVal)
  | cannotBindUnion (value : String) (alts : List Ty)
  | onlyStrKeys (keyTy : Ty)
  | fieldFailed (field : String) (inner : Err)
  | attributeError
  | typeError
  | typeHintsError

/-- `type(v)` restricted to the primitive types: `some p` when the value's
exact runtime type is the primitive `p` (note `type(True) is int` is false
in Python: `bool` is its own exact type). -/
def pyType? : PyVal → Option Prim
  | .none => some .noneP
  | .bool _ => some .boolP
  | .int _ => some .intP
  | .float _ => some .floatP
  | .str _ => some .strP
  | _ => Option.none

/-- Decimal rendering of a modelled Python float, approximating `str` of a
float: integral values print with a trailing `.0`; no verified property
evaluates this on a non-integral value. -/
def floatRepr (q : Rat) : String :=
  if q.den = 1 then toString q.num ++ ".0" else toString q

mutual

/-- Python `str(v)`: identity on strings, `repr` otherwise. -/
def pyStr : PyVal → String
  | .str s => s
  | v => pyRepr v

/-- Python `repr(v)` for the modelled values (strings quoted with
apostrophes, ignoring escape sequences; containers rendered recursively;
`repr` of a bound instance is approximated by a fixed tag, which no
verified property evaluates). -/
def pyRepr : PyVal → String
  | .none => "None"
  | .bool b => if b then "True" else "False"
  | .int n => toString n
  | .float q => floatRepr q
  | .str s => "\x27" ++ s ++ "\x27"
  | .list xs => "[" ++ pyReprSep xs ++ "]"
  | .tuple xs => "(" ++ pyReprSep xs ++ ")"
  | .set xs => "\x7b" ++ pyReprSep xs ++ "\x7d"
  | .dict kvs => "\x7b" ++ pyReprEntries kvs ++ "\x7d"
  | .obj _ => "<object>"

/-- Comma-separated `repr`s of a list of values. -/
def pyReprSep : List PyVal → String
  | [] => ""
  | [x] => pyRepr x
  | x :: y :: rest => pyRepr x ++ ", " ++ pyReprSep (y :: rest)

/-- Comma-separated `repr`s of dict entries. -/
def pyReprEntries : List (String × PyVal) → String
  | [] => ""
  | [(k, v)] => "\x27" ++ k ++ "\x27: " ++ pyRepr v
  | (k, v) :: e :: rest =>
      "\x27" ++ k ++ "\x27: " ++ pyRepr v ++ ", " ++ pyReprEntries (e :: rest)

end

/-- Numeric view used by Python `==`: booleans compare equal to the
integers 0/1 and integers to equal floats. -/
def pyNum? : PyVal → Option Rat
  | .bool b => some (mkRat (if b then 1 else 0) 1)
  | .int n => some (mkRat n 1)
  | .float q => some q
  | _ => Option.none

mutual

/-- Structural equality on modelled values (used as the fallback of
`pyEqB` below). -/
def pyValBEq : PyVal → PyVal → Bool
  | .none, .none => true
  | .bool a, .bool b => a == b
  | .int a, .int b => a == b
  | .float a, .float b => a == b
  | .str a, .str b => a == b
  | .list a, .list b => pyListBEq a b
  | .tuple a, .tuple b => pyListBEq a b
  | .set a, .set b => pyListBEq a b
  | .dict a, .dict b => pyEntriesBEq a b
  | .obj a, .obj b => pyEntriesBEq a b
  | _, _ => false

/-- Elementwise equality of value lists. -/
def pyListBEq : List PyVal → List PyVal → Bool
  | [], [] => true
  | x :: xs, y :: ys => pyValBEq x y && pyListBEq xs ys
  | _, _ => false

/-- Elementwise equality of entry lists. -/
def pyEntriesBEq : List (String × PyVal) → List (String × PyVal) → Bool
  | [], [] => true
  | (k, v) :: xs, (l, w) :: ys => k == l && pyValBEq v w && pyEntriesBEq xs ys
  | _, _ => false

end

/-- Python `==` on the modelled values: numeric values compare by value
across bool/int/float (so `False == 0` and `1 == 1.0`); everything else
compares structurally.  (Python's order-insensitive set/dict equality and
nested cross-type numeric equality inside containers are approximated
structurally; binding only ever compares scalars.) -/
def pyEqB (a b : PyVal) : Bool :=
  match pyNum? a, pyNum? b with
  | some x, some y => decide (x = y)
  | _, _ => pyValBEq a b

/-- Strip leading and trailing whitespace from a character list (the
char-level counterpart of Python's `str.strip` as applied by `float` and
`ast.literal_eval` to their argument). -/
def trimChars (cs : List Char) : List Char :=
  ((cs.dropWhile Char.isWhitespace).reverse.dropWhile Char.isWhitespace).reverse

/-- A non-empty all-digit character list read as a natural number (leading
zeros allowed, as in Python's numeric-string parsing). -/
def digitsToNat? (cs : List Char) : Option Nat :=
  if cs ≠ [] ∧ cs.all Char.isDigit then
    some (cs.foldl (fun acc c => acc * 10 + (c.toNat - 48)) 0)
  else Option.none

/-- Split a character list at every `'.'`. -/
def splitOnDot : List Char → List (List Char)
  | [] => [[]]
  | c :: rest =>
    let r := splitOnDot rest
    if c = '.' then [] :: r
    else
      match r with
      | [] => [[c]]
      | h :: t => (c :: h) :: t

/-- Python `float(s)` on a string, modelled for plain decimal literals:
optional surrounding whitespace, an optional sign, and digits with at most
one decimal point (at least one digit overall).  Exponents, `inf`/`nan`
and underscore separators are not modelled; no verified property uses
them. -/
def parseFloat? (s : String) : Option Rat :=
  let t := trimChars s.data
  let sb : Int × List Char :=
    match t with
    | '-' :: rest => (-1, rest)
    | '+' :: rest => (1, rest)
    | _ => (1, t)
  match splitOnDot sb.2 with
  | [w] => (digitsToNat? w).map (fun n => mkRat (sb.1 * (n : Int)) 1)
  | [w, f] =>
    match digitsToNat? w, digitsToNat? f with
    | some wn, some fn =>
        some (mkRat (sb.1 * ((wn : Int) * (10 : Int) ^ f.length + (fn : Int))) ((10 : Nat) ^ f.length))
    | some wn, Option.none => if f = [] then some (mkRat (sb.1 * (wn : Int)) 1) else Option.none
    | Option.none, some fn =>
        if w = [] then some (mkRat (sb.1 * (fn : Int)) ((10 : Nat) ^ f.length)) else Option.none
    | Option.none, Option.none => Option.none
  | _ => Option.none

/-- Python `float(v)`: floats and ints convert directly, booleans to 0/1,
strings through `parseFloat?`; anything else raises `TypeError`
(modelled as `Option.none`). -/
def pyFloat? : PyVal → Option Rat
  | .int n => some (mkRat n 1)
  | .float q => some q
  | .bool b => some (mkRat (if b then 1 else 0) 1)
  | .str s => parseFloat? s
  | _ => Option.none

/-- Python `int(f)` on a float: truncation toward zero (`Int.div` is
T-division, rounding toward zero). -/
def ratTrunc (q : Rat) : Int :=
  q.num.tdiv (q.den : Int)

/-- Name of a primitive type (`field_type.__name__`), used in error
messages. -/
def primName : Prim → String
  | .boolP => "bool"
  | .intP => "int"
  | .floatP => "float"
  | .noneP => "NoneType"
  | .strP => "str"

/-- `ConfigBinder.__bind_simple_type` (binder.py lines 206-229).  Fast path
when the input's exact type already matches; a native boolean is first
stringified; then per-target coercion: `int` via `int(float(x))`, `bool`
only from the case-insensitive strings `"true"`/`"false"`, `NoneType` when
`ast.literal_eval(str(x))` is `None` (modelled: `str(x)` trimmed equals
`"None"`), `str` via `str(x)` (never fails), `float` via `float(x)`.
Any `TypeError`/`ValueError` becomes the `ValidationError`
`cannotBindValue` naming the (possibly stringified) value and the target
type name. -/
def bindSimpleType (d : PyVal) (t : Prim) : Except Err PyVal :=
  if pyType? d = some t then .ok d
  else
    let d := match d with
      | .bool _ => .str (pyStr d)
      | _ => d
    match t with
    | .intP =>
      match pyFloat? d with
      | some q => .ok (.int (ratTrunc q))
      | Option.none => .error (.cannotBindValue (pyStr d) "int")
    | .boolP =>
      match d with
      | .str s =>
        if s.data.map Char.toLower = "true".data then .ok (.bool true)
        else if s.data.map Char.toLower = "false".data then .ok (.bool false)
        else .error (.cannotBindValue (pyStr d) "bool")
      | _ => .error (.cannotBindValue (pyStr d) "bool")
    | .noneP =>
      if trimChars (pyStr d).data = "None".data then .ok .none
      else .error (.cannotBindValue (pyStr d) "NoneType")
    | .floatP =>
      match pyFloat? d with
      | some q => .ok (.float q)
      | Option.none => .error (.cannotBindValue (pyStr d) "float")
    | .strP => .ok (.str (pyStr d))

/-- One iteration of the `__bind_literal` loop body: coerce the input to
`type(possible_arg)` and keep the result when it compares `==` to the
candidate; a raised coercion error or an unequal result yields nothing.
(`Literal` arguments are scalars, so `type(possible_arg)` is primitive;
a non-scalar candidate is modelled as never matching.) -/
def litTry (d a : PyVal) : Option PyVal :=
  match pyType? a with
  | some p =>
    match bindSimpleType d p with
    | .ok v => if pyEqB v a then some v else Option.none
    | .error _ => Option.none
  | Option.none => Option.none

/-- The candidate loop of `__bind_literal`: first matching candidate wins;
exhaustion raises the `ValidationError` naming the value and the full
allowed set. -/
def bindLiteralGo (d : PyVal) (allArgs : List PyVal) : List PyVal → Except Err PyVal
  | [] => .error (.cannotBindLiteral (pyStr d) allArgs)
  | a :: rest =>
    match litTry d a with
    | some v => .ok v
    | Option.none => bindLiteralGo d allArgs rest

/-- `ConfigBinder.__bind_literal` (binder.py lines 173-182). -/
def bindLiteral (d : PyVal) (args : List PyVal) : Except Err PyVal :=
  bindLiteralGo d args args

/-- Membership of a descriptor in the module-level `primitive_types` list
(the test `ft in primitive_types` / `clazz in primitive_types`): exactly
the primitive descriptors. -/
def isPrimTy : Ty → Bool
  | .prim _ => true
  | _ => false

/-- `data.get(field_name)` as used by `__bind_class` (line 111): a missing
key yields Python `None`; calling `.get` on anything that is not a mapping
raises `AttributeError`. -/
def pyGetE : PyVal → String → Except Err PyVal
  | .dict entries, name =>
    .ok (match entries.lookup name with
         | some v => v
         | Option.none => .none)
  | _, _ => .error .attributeError

/-- Python iteration (`for item in field_data` / `zip(field_data, ...)`):
lists, tuples and sets yield their elements, a string its characters, a
dict its keys; anything else raises `TypeError`. -/
def pyIterE : PyVal → Except Err (List PyVal)
  | .list xs => .ok xs
  | .tuple xs => .ok xs
  | .set xs => .ok xs
  | .str s => .ok (s.data.map (fun c => .str (String.mk [c])))
  | .dict entries => .ok (entries.map (fun kv => .str kv.1))
  | _ => .error .typeError

/-- `field_data.items()` as used by `__bind_dict`: only a mapping has
`.items()`; anything else raises `AttributeError`. -/
def pyItemsE : PyVal → Except Err (List (String × PyVal))
  | .dict entries => .ok entries
  | _ => .error .attributeError

/-- Python `set(xs)` construction: deduplicate by `==`, keeping the first
occurrence of each value. -/
def pySetOfList (xs : List PyVal) : List PyVal :=
  xs.foldl (fun acc x => if acc.any (fun y => pyEqB y x) then acc else acc ++ [x]) []

/-- The primitive alternatives of a union, in declared order
(`[ft for ft in field_types if ft in primitive_types]`, line 193). -/
def altPrims : List Ty → List Prim
  | [] => []
  | .prim p :: ts => p :: altPrims ts
  | _ :: ts => altPrims ts

/-- `str in field_types` (line 202). -/
def unionHasStr : List Ty → Bool
  | [] => false
  | .prim .strP :: _ => true
  | _ :: ts => unionHasStr ts

/-- `sorted(primitive_fields_types, key=lambda t: primitive_types.index(t))`
(line 194): Python's `sorted` is a stable sort by the key; it is modelled
by Mathlib's stable `insertionSort` on the key order. -/
def sortedByPriority (ps : List Prim) : List Prim :=
  List.insertionSort (fun a b => primIndex a ≤ primIndex b) ps

/-- The primitive loop of `__bind_union` (lines 196-200): try the sorted
primitive alternatives in turn, returning the first successful simple-type
binding. -/
def firstPrimOk (d : PyVal) : List Prim → Option PyVal
  | [] => Option.none
  | p :: ps =>
    match bindSimpleType d p with
    | .ok v => some v
    | .error _ => firstPrimOk d ps

/-- The tail of `__bind_union` after the class alternatives all failed
(lines 193-204): sorted primitive loop, then the raw-input fallback when
`str` is among the declared alternatives, then the `ValidationError`
naming the value and the full alternative set. -/
def unionPhase2 (d : PyVal) (alts : List Ty) : Except Err PyVal :=
  match firstPrimOk d (sortedByPriority (altPrims alts)) with
  | some v => .ok v
  | Option.none =>
    if unionHasStr alts then .ok d
    else .error (.cannotBindUnion (pyStr d) alts)

mutual

/-- `ConfigBinder.bind` (binder.py lines 70-75): primitive targets go to
`__bind_simple_type`, everything else to `__bind_class`.  (Here and below
the descriptor is the first argument, the data the second, mirroring the
Python `(data, clazz)` pair in swapped order for structural matching.) -/
def ConfigBinder.bind : Ty → PyVal → Except Err PyVal
  | .prim p, d => bindSimpleType d p
  | ty, d => bindClass ty d
termination_by ty _ => (sizeOf ty, 0, 2)

/-- `ConfigBinder.__bind_class` (lines 104-136): only a schema class has
usable type hints (on any other descriptor `get_type_hints` raises); the
fields are processed in declaration order and the instance is constructed
from the completed keyword-field map (the constructor-versus-`setattr`
fallback of lines 130-136 yields the same fully populated instance either
way, modelled as `PyVal.obj`). -/
def bindClass : Ty → PyVal → Except Err PyVal
  | .obj fields, d =>
    match objFields fields d with
    | .ok kw => .ok (.obj kw)
    | .error e => .error e
  | _, _ => .error .typeHintsError
termination_by ty _ => (sizeOf ty, 0, 1)

/-- The field loop of `__bind_class` (lines 109-128): fields in declaration
order, first failure aborts. -/
def objFields : List (String × Ty) → PyVal → Except Err (List (String × PyVal))
  | [], _ => .ok []
  | (name, fty) :: rest, d =>
    match bindOneField fty d name with
    | .ok v =>
      match objFields rest d with
      | .ok kw => .ok ((name, v) :: kw)
      | .error e => .error e
    | .error e => .error e
termination_by fields _ => (sizeOf fields, 0, 5)

/-- One iteration of the `__bind_class` field loop (lines 110-128): look up
the field's entry (a missing key yields null), dispatch on the field's
descriptor, and wrap any failure in a `ValidationError` naming the
field. -/
def bindOneField (fty : Ty) (d : PyVal) (name : String) : Except Err PyVal :=
  match
    (match pyGetE d name with
     | .ok fd => bindField fty fd
     | .error e => .error e) with
  | .ok v => .ok v
  | .error e => .error (.fieldFailed name e)
termination_by (sizeOf fty, 0, 4)

/-- The per-field dispatch of `__bind_class` (lines 112-126): schema class →
`__bind_class`; list/set → `__bind_set_list`; tuple → `__bind_tuple`;
dict → `__bind_dict`; `Literal` → `__bind_literal`; `Union` →
`__bind_union`; otherwise `__bind_simple_type`. -/
def bindField : Ty → PyVal → Except Err PyVal
  | .obj fields, fd => bindClass (.obj fields) fd
  | .listT item, fd => bindSetList (.listT item) fd
  | .setT item, fd => bindSetList (.setT item) fd
  | .tupleT args, fd => bindTuple (.tupleT args) fd
  | .dictT k v, fd => bindDict (.dictT k v) fd
  | .lit args, fd => bindLiteral fd args
  | .union alts, fd => bindUnion (.union alts) fd
  | .prim p, fd => bindSimpleType fd p
termination_by ty _ => (sizeOf ty, 0, 3)

/-- `ConfigBinder.__bind_set_list` (lines 154-157): bind every element of
the input against the single element descriptor via `bind`, then build the
target list or set; an element failure propagates unchanged. -/
def bindSetList : Ty → PyVal → Except Err PyVal
  | .listT item, fd =>
    match pyIterE fd with
    | .ok xs =>
      match bindItems item xs with
      | .ok vs => .ok (.list vs)
      | .error e => .error e
    | .error e => .error e
  | .setT item, fd =>
    match pyIterE fd with
    | .ok xs =>
      match bindItems item xs with
      | .ok vs => .ok (.set (pySetOfList vs))
      | .error e => .error e
    | .error e => .error e
  | _, _ => .error .typeError
termination_by ty _ => (sizeOf ty, 0, 1)

/-- The element loop of `__bind_set_list`: elements in input order, first
failure aborts with that element's error. -/
def bindItems : Ty → List PyVal → Except Err (List PyVal)
  | _, [] => .ok []
  | item, x :: xs =>
    match ConfigBinder.bind item x with
    | .ok v =>
      match bindItems item xs with
      | .ok vs => .ok (v :: vs)
      | .error e => .error e
    | .error e => .error e
termination_by item xs => (sizeOf item, sizeOf xs, 5)

/-- `ConfigBinder.__bind_tuple` (lines 159-161): zip the input with the
declared position descriptors (truncating to the shorter side, as `zip`
does) and bind positionally via `bind`. -/
def bindTuple : Ty → PyVal → Except Err PyVal
  | .tupleT args, fd =>
    match pyIterE fd with
    | .ok xs =>
      match zipBind args xs with
      | .ok vs => .ok (.tuple vs)
      | .error e => .error e
    | .error e => .error e
  | _, _ => .error .typeError
termination_by ty _ => (sizeOf ty, 0, 1)

/-- The zipped position loop of `__bind_tuple`: stops at the shorter of the
two lists; first failure aborts with that position's error. -/
def zipBind : List Ty → List PyVal → Except Err (List PyVal)
  | t :: ts, x :: xs =>
    match ConfigBinder.bind t x with
    | .ok v =>
      match zipBind ts xs with
      | .ok vs => .ok (v :: vs)
      | .error e => .error e
    | .error e => .error e
  | _, _ => .ok []
termination_by ts xs => (sizeOf ts, sizeOf xs, 5)

/-- `ConfigBinder.__bind_dict` (lines 163-171): a non-`str` declared key
type raises immediately, before the input is looked at; with a schema-class
value descriptor every value is bound via `__bind_class`; with any other
value descriptor the input passes through unchanged. -/
def bindDict : Ty → PyVal → Except Err PyVal
  | .dictT keyTy valTy, fd =>
    match keyTy with
    | .prim .strP =>
      match valTy with
      | .obj vfields =>
        match pyItemsE fd with
        | .ok entries =>
          match dictEntriesBind (.obj vfields) entries with
          | .ok out => .ok (.dict out)
          | .error e => .error e
        | .error e => .error e
      | _ => .ok fd
    | _ => .error (.onlyStrKeys keyTy)
  | _, _ => .error .typeError
termination_by ty _ => (sizeOf ty, 0, 1)

/-- The value loop of `__bind_dict` (line 169): every value bound via
`__bind_class` against the value descriptor; first failure aborts with
that value's error. -/
def dictEntriesBind : Ty → List (String × PyVal) → Except Err (List (String × PyVal))
  | _, [] => .ok []
  | valTy, (k, v) :: rest =>
    match bindClass valTy v with
    | .ok bv =>
      match dictEntriesBind valTy rest with
      | .ok brest => .ok ((k, bv) :: brest)
      | .error e => .error e
    | .error e => .error e
termination_by valTy entries => (sizeOf valTy, sizeOf entries, 5)

/-- `ConfigBinder.__bind_union` (lines 184-204): first every non-primitive
alternative is tried as a class in declared order (`unionGo1`); if none
succeeds, the primitive alternatives are tried in the fixed
coercion-priority order, with the string fallback and the final error
(`unionPhase2`). -/
def bindUnion : Ty → PyVal → Except Err PyVal
  | .union alts, fd =>
    match unionGo1 alts fd with
    | some v => .ok v
    | Option.none => unionPhase2 fd alts
  | _, _ => .error .typeError
termination_by ty _ => (sizeOf ty, 0, 1)

/-- The class-alternative loop of `__bind_union` (lines 187-191): skip
primitive alternatives, try the rest with `__bind_class` in declared
order, swallowing failures. -/
def unionGo1 : List Ty → PyVal → Option PyVal
  | [], _ => Option.none
  | t :: ts, fd =>
    if isPrimTy t then unionGo1 ts fd
    else
      match bindClass t fd with
      | .ok v => some v
      | .error _ => unionGo1 ts fd
termination_by alts _ => (sizeOf alts, 0, 5)

end

/-- `field_type.__name__`-style rendering of a descriptor for error
messages (only the primitive names are ever inspected by a verified
property). -/
def tyNameStr : Ty → String
  | .prim p => primName p
  | .obj _ => "<class>"
  | .listT _ => "list"
  | .setT _ => "set"
  | .tupleT _ => "tuple"
  | .dictT _ _ => "dict"
  | .lit _ => "Literal"
  | .union _ => "Union"

/-- Comma-separated rendering of a descriptor list (for the union error
message). -/
def tyListStr : List Ty → String
  | [] => ""
  | [t] => tyNameStr t
  | t :: u :: rest => tyNameStr t ++ ", " ++ tyListStr (u :: rest)

/-- The human-readable message of a binding error, mirroring the f-strings
of binder.py (lines 128, 167, 182, 204, 229); the native-exception
constructors render as their exception names. -/
def errMsg : Err → String
  | .cannotBindValue v t => "Cannot bind value \x27" ++ v ++ "\x27 to type \x27" ++ t ++ "\x27"
  | .cannotBindLiteral v allowed => "Cannot bind \x27" ++ v ++ "\x27 to Literal(" ++ pyReprSep allowed ++ ")"
  | .cannotBindUnion v alts => "Cannot bind \x27" ++ v ++ "\x27 to Union(" ++ tyListStr alts ++ ")"
  | .onlyStrKeys keyTy =>
      "Only str keys dicts supported; found Dict keys with type \x27" ++ tyNameStr keyTy ++ "\x27"
  | .fieldFailed f inner => "Failed to bind \x27" ++ f ++ "\x27 field: " ++ errMsg inner
  | .attributeError => "AttributeError"
  | .typeError => "TypeError"
  | .typeHintsError => "TypeError: not a class"

/-! ## Helper lemmas -/

theorem bindSimpleType_strP (d : PyVal) : bindSimpleType d .strP = .ok (.str (pyStr d)) := by
  cases d <;> simp [bindSimpleType, pyType?, pyStr]

theorem altPrims_mem (alts : List Ty) (p : Prim) : p ∈ altPrims alts ↔ Ty.prim p ∈ alts := by
  induction alts with
  | nil => simp [altPrims]
  | cons t ts ih => cases t <;> simp [altPrims, ih]

theorem sortedByPriority_perm (ps : List Prim) : List.Perm (sortedByPriority ps) ps :=
  List.perm_insertionSort _ ps

theorem sortedByPriority_mem (ps : List Prim) (p : Prim) :
    p ∈ sortedByPriority ps ↔ p ∈ ps :=
  (sortedByPriority_perm ps).mem_iff

theorem unionHasStr_iff (alts : List Ty) :
    unionHasStr alts = true ↔ Ty.prim Prim.strP ∈ alts := by
  induction alts with
  | nil => simp [unionHasStr]
  | cons t ts ih =>
    match t with
    | .prim .boolP | .prim .intP | .prim .floatP | .prim .noneP =>
      simpa [unionHasStr] using ih
    | .prim .strP => simp [unionHasStr]
    | .obj _ | .listT _ | .setT _ | .tupleT _ | .dictT _ _ | .lit _ | .union _ =>
      simpa [unionHasStr] using ih

theorem firstPrimOk_none (d : PyVal) (l : List Prim)
    (h : ∀ p ∈ l, ∃ e, bindSimpleType d p = .error e) :
    firstPrimOk d l = Option.none := by
  induction l with
  | nil => rfl
  | cons p ps ih =>
    obtain ⟨e, he⟩ := h p (by simp)
    simp only [firstPrimOk, he]
    exact ih (fun q hq => h q (by simp [hq]))

theorem firstPrimOk_str (d : PyVal) (l : List Prim)
    (hs : Prim.strP ∈ l)
    (h : ∀ p ∈ l, p ≠ Prim.strP → ∃ e, bindSimpleType d p = .error e) :
    firstPrimOk d l = some (.str (pyStr d)) := by
  induction l with
  | nil => cases hs
  | cons p ps ih =>
    by_cases hp : p = Prim.strP
    · subst hp
      simp [firstPrimOk, bindSimpleType_strP]
    · obtain ⟨e, he⟩ := h p (by simp) hp
      simp only [firstPrimOk, he]
      have hs' : Prim.strP ∈ ps := by
        rcases List.mem_cons.mp hs with h1 | h1
        · exact absurd h1.symm hp
        · exact h1
      exact ih hs' (fun q hq hq' => h q (by simp [hq]) hq')

theorem sortedByPriority_eq_of_mem_iff (ps ps' : List Prim)
    (h1 : ps.Nodup) (h2 : ps'.Nodup) (h : ∀ p, p ∈ ps ↔ p ∈ ps') :
    sortedByPriority ps = sortedByPriority ps' := by
  haveI : IsTotal Prim (fun a b => primIndex a ≤ primIndex b) :=
    ⟨fun a b => Nat.le_total _ _⟩
  haveI : IsTrans Prim (fun a b => primIndex a ≤ primIndex b) :=
    ⟨fun _ _ _ hab hbc => Nat.le_trans hab hbc⟩
  haveI : IsAntisymm Prim (fun a b => primIndex a ≤ primIndex b) :=
    ⟨fun a b hab hba => by revert hab hba; cases a <;> cases b <;> decide⟩
  have hperm : List.Perm ps ps' := by
    apply List.perm_of_nodup_nodup_toFinset_eq h1 h2
    ext p
    simp [h p]
  exact List.eq_of_perm_of_sorted
    (((sortedByPriority_perm ps).trans hperm).trans (sortedByPriority_perm ps').symm)
    (List.sorted_insertionSort _ ps)
    (List.sorted_insertionSort _ ps')

/-! ## Claims -/

/-- C1: Union binding resolves in two ordered phases: every non-primitive
(class) alternative is tried as a class in declared order and the first
success is returned (second conjunct, and the concrete object-versus-string
example); if none succeed, the primitive alternatives are tried in the
fixed global priority order `bool, int, float, NoneType, str` regardless of
their declared order (first conjunct: the sorted order depends only on
which primitives are declared, not on their declared order); and for
`Union[int, str, bool]`, binding `23` yields the int `23`, `"test"` yields
the string `"test"`, and `True` yields the bool `True`, not the int `1`. -/
theorem c1_union_two_phase :
    (∀ ps ps' : List Prim, ps.Nodup → ps'.Nodup → (∀ p, p ∈ ps ↔ p ∈ ps') →
        sortedByPriority ps = sortedByPriority ps')
    ∧ (∀ (alts : List Ty) (d v : PyVal), unionGo1 alts d = some v →
        bindUnion (.union alts) d = .ok v)
    ∧ bindUnion (.union [.prim .strP, .obj [("f", .prim .intP)]]) (.dict [("f", .int 1)])
        = .ok (.obj [("f", .int 1)])
    ∧ bindUnion (.union [.prim .intP, .prim .strP, .prim .boolP]) (.int 23) = .ok (.int 23)
    ∧ bindUnion (.union [.prim .intP, .prim .strP, .prim .boolP]) (.str "test")
        = .ok (.str "test")
    ∧ bindUnion (.union [.prim .intP, .prim .strP, .prim .boolP]) (.bool true)
        = .ok (.bool true) := by
  refine ⟨sortedByPriority_eq_of_mem_iff, ?_, ?_, ?_, ?_, ?_⟩
  · intro alts d v h
    simp [bindUnion, h]
  · simp [bindUnion, unionGo1, isPrimTy, bindClass, objFields, bindOneField, pyGetE,
      bindField, bindSimpleType, pyType?, List.lookup]
  · simp [bindUnion, unionGo1, isPrimTy, unionPhase2, sortedByPriority, altPrims,
      List.insertionSort, List.orderedInsert, primIndex, firstPrimOk, bindSimpleType, pyType?]
  · simp [bindUnion, unionGo1, isPrimTy, unionPhase2, sortedByPriority, altPrims,
      List.insertionSort, List.orderedInsert, primIndex, firstPrimOk, bindSimpleType, pyType?,
      pyFloat?, parseFloat?, trimChars, digitsToNat?, splitOnDot, pyStr, pyRepr]
  · simp [bindUnion, unionGo1, isPrimTy, unionPhase2, sortedByPriority, altPrims,
      List.insertionSort, List.orderedInsert, primIndex, firstPrimOk, bindSimpleType, pyType?]

/-- Witness for C1: the sorted primitive order is the same for two opposite
declared orders, and a concrete phase-1 success is returned by the union. -/
theorem c1_union_two_phase_witness :
    sortedByPriority [Prim.intP, Prim.strP, Prim.boolP]
      = sortedByPriority [Prim.boolP, Prim.strP, Prim.intP] :=
  c1_union_two_phase.1 [Prim.intP, Prim.strP, Prim.boolP] [Prim.boolP, Prim.strP, Prim.intP]
    (by decide) (by decide) (fun p => by cases p <;> decide)

/-- C2: In union binding, when no class alternative and no non-string
primitive alternative succeeds and `str` is among the declared
alternatives, the input is returned as a string (the string coercion of
the raw input; e.g. binding `None` against `Union[int, str, bool]` yields
the string `"None"`); when `str` is not among the alternatives and every
alternative fails, binding fails with the error naming the value and the
full alternative set. -/
theorem c2_union_str_fallback :
    (∀ (alts : List Ty) (d : PyVal),
        Ty.prim Prim.strP ∈ alts →
        unionGo1 alts d = Option.none →
        (∀ p, Ty.prim p ∈ alts → p ≠ Prim.strP → ∃ e, bindSimpleType d p = .error e) →
        bindUnion (.union alts) d = .ok (.str (pyStr d)))
    ∧ (∀ (alts : List Ty) (d : PyVal),
        Ty.prim Prim.strP ∉ alts →
        unionGo1 alts d = Option.none →
        (∀ p, Ty.prim p ∈ alts → ∃ e, bindSimpleType d p = .error e) →
        bindUnion (.union alts) d = .error (.cannotBindUnion (pyStr d) alts))
    ∧ bindUnion (.union [.prim .intP, .prim .strP, .prim .boolP]) PyVal.none
        = .ok (.str "None")
    ∧ bindUnion (.union [.prim .intP, .prim .boolP]) PyVal.none
        = .error (.cannotBindUnion "None" [.prim .intP, .prim .boolP]) := by
  refine ⟨?_, ?_, ?_, ?_⟩
  · intro alts d hstr h1 h2
    have hfirst : firstPrimOk d (sortedByPriority (altPrims alts)) = some (.str (pyStr d)) := by
      apply firstPrimOk_str
      · rw [sortedByPriority_mem, altPrims_mem]
        exact hstr
      · intro p hp hne
        exact h2 p ((altPrims_mem alts p).mp ((sortedByPriority_mem _ p).mp hp)) hne
    simp [bindUnion, h1, unionPhase2, hfirst]
  · intro alts d hstr h1 h2
    have hfirst : firstPrimOk d (sortedByPriority (altPrims alts)) = Option.none := by
      apply firstPrimOk_none
      intro p hp
      exact h2 p ((altPrims_mem alts p).mp ((sortedByPriority_mem _ p).mp hp))
    have hno : unionHasStr alts = false := by
      rw [← Bool.not_eq_true, unionHasStr_iff]
      exact hstr
    simp [bindUnion, h1, unionPhase2, hfirst, hno]
  · simp [bindUnion, unionGo1, isPrimTy, unionPhase2, sortedByPriority, altPrims,
      List.insertionSort, List.orderedInsert, primIndex, firstPrimOk, bindSimpleType, pyType?,
      pyFloat?, unionHasStr, pyStr, pyRepr]
  · simp [bindUnion, unionGo1, isPrimTy, unionPhase2, sortedByPriority, altPrims,
      List.insertionSort, List.orderedInsert, primIndex, firstPrimOk, bindSimpleType, pyType?,
      pyFloat?, unionHasStr, pyStr, pyRepr]

/-- Witness for C2: the string fallback fires for `None` against
`Union[int, str, bool]` through the general clause. -/
theorem c2_union_str_fallback_witness :
    bindUnion (.union [.prim .intP, .prim .strP, .prim .boolP]) PyVal.none
      = .ok (.str (pyStr PyVal.none)) :=
  c2_union_str_fallback.1 [.prim .intP, .prim .strP, .prim .boolP] PyVal.none
    (by simp) (by simp [unionGo1, isPrimTy])
    (fun p hp hne => by
      simp only [List.mem_cons, List.not_mem_nil, or_false, Ty.prim.injEq] at hp
      rcases hp with rfl | rfl | rfl
      · exact ⟨_, rfl⟩
      · exact absurd rfl hne
      · exact ⟨_, rfl⟩)

theorem bindLiteralGo_no_match (d : PyVal) (allArgs args : List PyVal)
    (h : ∀ a ∈ args, litTry d a = Option.none) :
    bindLiteralGo d allArgs args = .error (.cannotBindLiteral (pyStr d) allArgs) := by
  induction args with
  | nil => rfl
  | cons a rest ih =>
    simp only [bindLiteralGo, h a (by simp)]
    exact ih (fun b hb => h b (by simp [hb]))

theorem bindLiteralGo_ok (d : PyVal) (allArgs args : List PyVal) (v : PyVal)
    (h : bindLiteralGo d allArgs args = .ok v) :
    ∃ pre a post, args = pre ++ a :: post ∧ (∀ b ∈ pre, litTry d b = Option.none)
      ∧ litTry d a = some v := by
  induction args with
  | nil => simp [bindLiteralGo] at h
  | cons a rest ih =>
    rcases hla : litTry d a with _ | w
    · simp only [bindLiteralGo, hla] at h
      obtain ⟨pre, b, post, hsplit, hpre, hb⟩ := ih h
      exact ⟨a :: pre, b, post, by simp [hsplit], by
        intro c hc
        rcases List.mem_cons.mp hc with rfl | hc
        · exact hla
        · exact hpre c hc, hb⟩
    · simp only [bindLiteralGo, hla] at h
      cases h
      exact ⟨[], a, rest, rfl, by simp, hla⟩

/-- C3: Literal binding tries the allowed values in declared order,
coercing the input to the concrete type of each candidate with the
primitive coercion rules and returning the first coerced result that
compares equal to that candidate (second conjunct); exhaustion of all
candidates fails with the error naming the attempted value and the full
allowed set (first conjunct); and for `Literal[1,2,3,5,8,13,False]`,
binding `5` yields `5`, `"13"` yields `13`, `False` yields `False` (not
`0`), while `33` and `True` fail. -/
theorem c3_literal_first_match :
    (∀ (d : PyVal) (args : List PyVal),
        (∀ a ∈ args, litTry d a = Option.none) →
        bindLiteral d args = .error (.cannotBindLiteral (pyStr d) args))
    ∧ (∀ (d : PyVal) (args : List PyVal) (v : PyVal),
        bindLiteral d args = .ok v →
        ∃ pre a post, args = pre ++ a :: post ∧ (∀ b ∈ pre, litTry d b = Option.none)
          ∧ litTry d a = some v)
    ∧ bindLiteral (.int 5) [.int 1, .int 2, .int 3, .int 5, .int 8, .int 13, .bool false]
        = .ok (.int 5)
    ∧ bindLiteral (.str "13") [.int 1, .int 2, .int 3, .int 5, .int 8, .int 13, .bool false]
        = .ok (.int 13)
    ∧ bindLiteral (.bool false) [.int 1, .int 2, .int 3, .int 5, .int 8, .int 13, .bool false]
        = .ok (.bool false)
    ∧ bindLiteral (.int 33) [.int 1, .int 2, .int 3, .int 5, .int 8, .int 13, .bool false]
        = .error (.cannotBindLiteral "33" [.int 1, .int 2, .int 3, .int 5, .int 8, .int 13, .bool false])
    ∧ bindLiteral (.bool true) [.int 1, .int 2, .int 3, .int 5, .int 8, .int 13, .bool false]
        = .error (.cannotBindLiteral "True" [.int 1, .int 2, .int 3, .int 5, .int 8, .int 13, .bool false]) := by
  refine ⟨?_, ?_, by rfl, by rfl, by rfl, by rfl, by rfl⟩
  · intro d args h
    exact bindLiteralGo_no_match d args args h
  · intro d args v h
    exact bindLiteralGo_ok d args args v h

/-- Witness for C3: the exhaustion clause applied at a concrete
non-matching input. -/
theorem c3_literal_first_match_witness :
    bindLiteral (.str "zzz") [.int 1] = .error (.cannotBindLiteral "zzz" [.int 1]) :=
  c3_literal_first_match.1 (.str "zzz") [.int 1]
    (by
      intro a ha
      simp only [List.mem_singleton] at ha
      subst ha
      rfl)

theorem zipBind_ok_iff (args : List Ty) (xs vs : List PyVal) :
    zipBind args xs = .ok vs ↔
      List.Forall₂ (fun tx v => ConfigBinder.bind tx.1 tx.2 = .ok v) (args.zip xs) vs := by
  induction args generalizing xs vs with
  | nil =>
    simp only [zipBind, List.zip_nil_left, List.forall₂_nil_left_iff]
    exact ⟨fun h => by cases h; rfl, fun h => by subst h; rfl⟩
  | cons t ts ih =>
    cases xs with
    | nil =>
      simp only [zipBind, List.zip_nil_right, List.forall₂_nil_left_iff]
      exact ⟨fun h => by cases h; rfl, fun h => by subst h; rfl⟩
    | cons x xr =>
      simp only [List.zip_cons_cons, List.forall₂_cons_left_iff]
      cases h : ConfigBinder.bind t x with
      | error e => simp [zipBind, h]
      | ok v =>
        cases hz : zipBind ts xr with
        | error e =>
          simp only [zipBind, h, hz]
          constructor
          · intro hh; cases hh
          · rintro ⟨b, u', hb, hf, rfl⟩
            rw [← ih] at hf
            rw [hf] at hz
            cases hz
        | ok vr =>
          simp only [zipBind, h, hz]
          constructor
          · intro hh
            cases hh
            exact ⟨v, vr, rfl, (ih xr vr).mp hz, rfl⟩
          · rintro ⟨b, u', hb, hf, rfl⟩
            cases hb
            rw [← ih] at hf
            rw [hf] at hz
            cases hz
            rfl

/-- C4 counterexample: binding an input of the wrong length against a
fixed-arity tuple descriptor fully succeeds (the claim says it must not):
a length-1 input against `Tuple[int, str]` binds to a length-1 tuple, and
a length-3 input binds to a length-2 tuple with the extra element silently
dropped. -/
theorem c4_counterexample :
    bindTuple (.tupleT [.prim .intP, .prim .strP]) (.list [.int 1]) = .ok (.tuple [.int 1])
    ∧ bindTuple (.tupleT [.prim .intP, .prim .strP]) (.list [.int 1, .str "a", .int 99])
        = .ok (.tuple [.int 1, .str "a"]) := by
  constructor <;>
    simp [bindTuple, pyIterE, zipBind, ConfigBinder.bind, bindSimpleType, pyType?]

/-- C4 (amended): tuple binding pairs the input with the position
descriptors by `zip`, truncating to the shorter side; each paired position
is bound independently via `bind`, and a successful result has
`min(arity, input length)` elements — a length mismatch is not an
error. -/
theorem c4_tuple_zip_truncates :
    (∀ (args : List Ty) (xs vs : List PyVal), zipBind args xs = .ok vs →
        vs.length = min args.length xs.length)
    ∧ (∀ (args : List Ty) (xs vs : List PyVal),
        zipBind args xs = .ok vs ↔
          List.Forall₂ (fun tx v => ConfigBinder.bind tx.1 tx.2 = .ok v) (args.zip xs) vs)
    ∧ (∀ (args : List Ty) (xs : List PyVal),
        bindTuple (.tupleT args) (.list xs)
          = match zipBind args xs with
            | .ok vs => .ok (.tuple vs)
            | .error e => .error e) := by
  refine ⟨?_, zipBind_ok_iff, ?_⟩
  · intro args xs vs h
    have := ((zipBind_ok_iff args xs vs).mp h).length_eq
    rw [List.length_zip] at this
    exact this.symm
  · intro args xs
    simp [bindTuple, pyIterE]

/-- Witness for C4 (amended): a concrete truncating success has the
predicted length. -/
theorem c4_tuple_zip_truncates_witness :
    ([PyVal.int 1] : List PyVal).length
      = min ([Ty.prim .intP] : List Ty).length ([PyVal.int 1, PyVal.int 2] : List PyVal).length :=
  c4_tuple_zip_truncates.1 [Ty.prim .intP] [PyVal.int 1, PyVal.int 2] [PyVal.int 1]
    (by simp [zipBind, ConfigBinder.bind, bindSimpleType, pyType?])

theorem bindItems_ok_iff (item : Ty) (xs vs : List PyVal) :
    bindItems item xs = .ok vs ↔
      List.Forall₂ (fun x v => ConfigBinder.bind item x = .ok v) xs vs := by
  induction xs generalizing vs with
  | nil =>
    simp only [bindItems, List.forall₂_nil_left_iff]
    exact ⟨fun h => by cases h; rfl, fun h => by subst h; rfl⟩
  | cons x xr ih =>
    simp only [List.forall₂_cons_left_iff]
    cases h : ConfigBinder.bind item x with
    | error e => simp [bindItems, h]
    | ok v =>
      cases hz : bindItems item xr with
      | error e =>
        simp only [bindItems, h, hz]
        constructor
        · intro hh; cases hh
        · rintro ⟨b, u', hb, hf, rfl⟩
          rw [← ih] at hf
          rw [hf] at hz
          cases hz
      | ok vr =>
        simp only [bindItems, h, hz]
        constructor
        · intro hh
          cases hh
          exact ⟨v, vr, rfl, (ih vr).mp hz, rfl⟩
        · rintro ⟨b, u', hb, hf, rfl⟩
          cases hb
          rw [← ih] at hf
          rw [hf] at hz
          cases hz
          rfl

theorem bindItems_error (item : Ty) (xs : List PyVal) (e : Err)
    (h : bindItems item xs = .error e) :
    ∃ pre x post, xs = pre ++ x :: post
      ∧ (∀ y ∈ pre, ∃ v, ConfigBinder.bind item y = .ok v)
      ∧ ConfigBinder.bind item x = .error e := by
  induction xs with
  | nil => simp [bindItems] at h
  | cons x xr ih =>
    cases hb : ConfigBinder.bind item x with
    | error e' =>
      simp only [bindItems, hb] at h
      cases h
      exact ⟨[], x, xr, rfl, by simp, hb⟩
    | ok v =>
      cases hz : bindItems item xr with
      | error e' =>
        simp only [bindItems, hb, hz] at h
        cases h
        obtain ⟨pre, y, post, hsplit, hpre, hy⟩ := ih hz
        refine ⟨x :: pre, y, post, by simp [hsplit], ?_, hy⟩
        intro z hz'
        rcases List.mem_cons.mp hz' with rfl | hz'
        · exact ⟨v, hb⟩
        · exact hpre z hz'
      | ok vr => simp [bindItems, hb, hz] at h

/-- C5 counterexample: an element failure inside a bound list aborts the
collection with the element's own error wrapped only by the *field* name;
the failing element's index appears nowhere in the error or its rendered
message (the message of the concrete failure at index 1 contains no digit
at all), contradicting the claim that the index is included in the
path. -/
theorem c5_counterexample :
    bindClass (.obj [("f", .listT (.prim .intP))])
        (.dict [("f", .list [.str "1", .str "two", .str "3"])])
      = .error (.fieldFailed "f" (.cannotBindValue "two" "int"))
    ∧ ((errMsg (.fieldFailed "f" (.cannotBindValue "two" "int"))).data.all
        (fun c => !c.isDigit)) = true := by
  constructor
  · simp [bindClass, objFields, bindOneField, pyGetE, List.lookup, bindField, bindSetList,
      pyIterE, bindItems, ConfigBinder.bind, bindSimpleType, pyType?, pyFloat?, parseFloat?,
      trimChars, digitsToNat?, splitOnDot, pyStr, pyRepr]
  · rfl

/-- C5 (amended): for sequence and set descriptors every element of the
input sequence is bound against the single element descriptor, preserving
input order (first conjunct); any element failure aborts the whole
collection with that element's own error, propagated unchanged — no index
or other path component is added at the collection level (second, third
and fourth conjuncts). -/
theorem c5_elements_bound_in_order :
    (∀ (item : Ty) (xs vs : List PyVal),
        bindItems item xs = .ok vs ↔
          List.Forall₂ (fun x v => ConfigBinder.bind item x = .ok v) xs vs)
    ∧ (∀ (item : Ty) (xs : List PyVal) (e : Err),
        bindItems item xs = .error e →
        ∃ pre x post, xs = pre ++ x :: post
          ∧ (∀ y ∈ pre, ∃ v, ConfigBinder.bind item y = .ok v)
          ∧ ConfigBinder.bind item x = .error e)
    ∧ (∀ (item : Ty) (xs : List PyVal),
        bindSetList (.listT item) (.list xs)
          = match bindItems item xs with
            | .ok vs => .ok (.list vs)
            | .error e => .error e)
    ∧ (∀ (item : Ty) (xs : List PyVal),
        bindSetList (.setT item) (.list xs)
          = match bindItems item xs with
            | .ok vs => .ok (.set (pySetOfList vs))
            | .error e => .error e) := by
  refine ⟨bindItems_ok_iff, bindItems_error, ?_, ?_⟩
  · intro item xs
    simp [bindSetList, pyIterE]
  · intro item xs
    simp [bindSetList, pyIterE]

/-- Witness for C5 (amended): a concrete element list binds elementwise in
order. -/
theorem c5_elements_bound_in_order_witness :
    List.Forall₂ (fun x v => ConfigBinder.bind (.prim .intP) x = .ok v)
      [PyVal.str "1", PyVal.int 2] [PyVal.int 1, PyVal.int 2] :=
  (c5_elements_bound_in_order.1 (.prim .intP) [PyVal.str "1", PyVal.int 2]
      [PyVal.int 1, PyVal.int 2]).mp
    (by simp [bindItems, ConfigBinder.bind, bindSimpleType, pyType?, pyFloat?, parseFloat?,
      trimChars, digitsToNat?, splitOnDot] <;> decide)

/-- C6: a map descriptor whose declared key type is not `str` is rejected
with the dedicated key-type error regardless of the input value — in
particular before any value of the input mapping is inspected, since the
result is the same for every input (first conjunct); the error is distinct
from the per-value/per-field binding errors (second conjunct); concretely,
`Dict[int, X]` is rejected this way even when every value would bind. -/
theorem c6_dict_key_must_be_str :
    (∀ (keyTy valTy : Ty) (d : PyVal), keyTy ≠ .prim .strP →
        bindDict (.dictT keyTy valTy) d = .error (.onlyStrKeys keyTy))
    ∧ (∀ (keyTy : Ty) (name : String) (e : Err) (v t : String),
        Err.onlyStrKeys keyTy ≠ .fieldFailed name e
        ∧ Err.onlyStrKeys keyTy ≠ .cannotBindValue v t)
    ∧ bindDict (.dictT (.prim .intP) (.obj [("nested_field", .prim .intP)]))
        (.dict [("k", .dict [("nested_field", .int 123)])])
      = .error (.onlyStrKeys (.prim .intP)) := by
  refine ⟨?_, ?_, ?_⟩
  · intro keyTy valTy d hne
    match keyTy, hne with
    | .prim .boolP, _ | .prim .intP, _ | .prim .floatP, _ | .prim .noneP, _ =>
      simp [bindDict]
    | .prim .strP, hne => exact absurd rfl hne
    | .obj _, _ | .listT _, _ | .setT _, _ | .tupleT _, _ | .dictT _ _, _ | .lit _, _
    | .union _, _ =>
      simp [bindDict]
  · intro keyTy name e v t
    exact ⟨by simp, by simp⟩
  · simp [bindDict]

/-- Witness for C6: the key-type rejection applied at `Dict[int, int]` with
a populated input. -/
theorem c6_dict_key_must_be_str_witness :
    bindDict (.dictT (.prim .intP) (.prim .intP)) (.dict [("a", .int 1)])
      = .error (.onlyStrKeys (.prim .intP)) :=
  c6_dict_key_must_be_str.1 (.prim .intP) (.prim .intP) (.dict [("a", .int 1)]) (by simp)

theorem dictEntriesBind_ok_iff (vf : List (String × Ty))
    (entries out : List (String × PyVal)) :
    dictEntriesBind (.obj vf) entries = .ok out ↔
      List.Forall₂ (fun kv ov => ov.1 = kv.1 ∧ bindClass (.obj vf) kv.2 = .ok ov.2)
        entries out := by
  induction entries generalizing out with
  | nil =>
    simp only [dictEntriesBind, List.forall₂_nil_left_iff]
    exact ⟨fun h => by cases h; rfl, fun h => by subst h; rfl⟩
  | cons kv rest ih =>
    obtain ⟨k, v⟩ := kv
    simp only [List.forall₂_cons_left_iff]
    cases h : bindClass (.obj vf) v with
    | error e => simp [dictEntriesBind, h]
    | ok bv =>
      cases hz : dictEntriesBind (.obj vf) rest with
      | error e =>
        simp only [dictEntriesBind, h, hz]
        constructor
        · intro hh; cases hh
        · rintro ⟨b, u', hb, hf, rfl⟩
          rw [← ih] at hf
          rw [hf] at hz
          cases hz
      | ok brest =>
        simp only [dictEntriesBind, h, hz]
        constructor
        · intro hh
          cases hh
          exact ⟨(k, bv), brest, ⟨rfl, rfl⟩, (ih brest).mp hz, rfl⟩
        · rintro ⟨⟨bk, bv'⟩, u', ⟨hk, hb⟩, hf, rfl⟩
          simp only at hk hb
          injection hb with hbv
          subst hk
          subst hbv
          rw [← ih] at hf
          rw [hf] at hz
          cases hz
          rfl

/-- C7: for a string-keyed map, values are recursively bound only when the
value descriptor is a schema class: with any non-class value descriptor
the whole input passes through unchanged (first conjunct; so
`Dict[str, int]` with string values such as `"1"` leaves them as uncoerced
strings — final conjunct); with a class value descriptor every value is
bound via `__bind_class`, keys unchanged (second and third conjuncts). -/
theorem c7_dict_values_only_classes_bound :
    (∀ (valTy : Ty) (d : PyVal), (∀ vf, valTy ≠ .obj vf) →
        bindDict (.dictT (.prim .strP) valTy) d = .ok d)
    ∧ (∀ (vf : List (String × Ty)) (entries out : List (String × PyVal)),
        dictEntriesBind (.obj vf) entries = .ok out ↔
          List.Forall₂ (fun kv ov => ov.1 = kv.1 ∧ bindClass (.obj vf) kv.2 = .ok ov.2)
            entries out)
    ∧ (∀ (vf : List (String × Ty)) (entries : List (String × PyVal)),
        bindDict (.dictT (.prim .strP) (.obj vf)) (.dict entries)
          = match dictEntriesBind (.obj vf) entries with
            | .ok out => .ok (.dict out)
            | .error e => .error e)
    ∧ bindDict (.dictT (.prim .strP) (.prim .intP)) (.dict [("a", .str "1")])
        = .ok (.dict [("a", .str "1")]) := by
  refine ⟨?_, dictEntriesBind_ok_iff, ?_, ?_⟩
  · intro valTy d hne
    match valTy, hne with
    | .prim p, _ => simp [bindDict]
    | .obj vf, hne => exact absurd rfl (hne vf)
    | .listT _, _ | .setT _, _ | .tupleT _, _ | .dictT _ _, _ | .lit _, _ | .union _, _ =>
      simp [bindDict]
  · intro vf entries
    simp [bindDict, pyItemsE]
  · simp [bindDict]

/-- Witness for C7: a primitive-valued map passes through unchanged even
when its values are uncoerced strings. -/
theorem c7_dict_values_only_classes_bound_witness :
    bindDict (.dictT (.prim .strP) (.prim .intP)) (.dict [("n", .str "23")])
      = .ok (.dict [("n", .str "23")]) :=
  c7_dict_values_only_classes_bound.1 (.prim .intP) (.dict [("n", .str "23")])
    (fun vf => by simp)

/-- C8: for a boolean target, exactly the case-insensitive strings
`"true"`/`"false"` coerce to `True`/`False`, and a native boolean is
returned unchanged by the fast path (first conjunct, an exact
characterization of all successes); every other input fails, including the
native integers `0`/`1`, the strings `"0"`/`"1"`, other strings,
non-boolean numbers, and null (remaining conjuncts). -/
theorem c8_bool_coercion :
    (∀ (d v : PyVal), bindSimpleType d .boolP = .ok v ↔
        ((d = .bool true ∨ ∃ s, d = .str s ∧ s.data.map Char.toLower = "true".data)
            ∧ v = .bool true)
        ∨ ((d = .bool false ∨ ∃ s, d = .str s ∧ s.data.map Char.toLower = "false".data)
            ∧ v = .bool false))
    ∧ bindSimpleType (.bool true) .boolP = .ok (.bool true)
    ∧ bindSimpleType (.str "TRue") .boolP = .ok (.bool true)
    ∧ bindSimpleType (.str "false") .boolP = .ok (.bool false)
    ∧ bindSimpleType (.int 0) .boolP = .error (.cannotBindValue "0" "bool")
    ∧ bindSimpleType (.int 1) .boolP = .error (.cannotBindValue "1" "bool")
    ∧ bindSimpleType (.str "0") .boolP = .error (.cannotBindValue "0" "bool")
    ∧ bindSimpleType (.str "1") .boolP = .error (.cannotBindValue "1" "bool")
    ∧ bindSimpleType (.str "test") .boolP = .error (.cannotBindValue "test" "bool")
    ∧ bindSimpleType (.int 1412) .boolP = .error (.cannotBindValue "1412" "bool")
    ∧ (∀ v, bindSimpleType (.float (mkRat 1 10)) .boolP ≠ .ok v)
    ∧ (∀ v, bindSimpleType PyVal.none .boolP ≠ .ok v) := by
  refine ⟨?_, by rfl, by rfl, by rfl, by rfl, by rfl, by rfl, by rfl, by rfl, by rfl,
    by intro v; simp [bindSimpleType, pyType?], by intro v; simp [bindSimpleType, pyType?]⟩
  intro d v
  cases d with
  | bool b => cases b <;> simp [bindSimpleType, pyType?, eq_comm]
  | str s =>
    by_cases h1 : s.data.map Char.toLower = "true".data
    · simp [bindSimpleType, pyType?, h1, eq_comm]
    · by_cases h2 : s.data.map Char.toLower = "false".data
      · simp [bindSimpleType, pyType?, h1, h2, eq_comm]
      · simp [bindSimpleType, pyType?, h1, h2]
  | _ => simp [bindSimpleType, pyType?]

/-- Witness for C8: the characterization applied at the concrete
case-insensitive string `"False"`. -/
theorem c8_bool_coercion_witness :
    bindSimpleType (.str "False") .boolP = .ok (.bool false) :=
  (c8_bool_coercion.1 (.str "False") (.bool false)).mpr
    (Or.inr ⟨Or.inr ⟨"False", rfl, by decide⟩, rfl⟩)

/-- C9: when an object field's name is absent from the input mapping, the
field is bound against null rather than failing immediately: the per-field
computation equals the dispatch of the field's own descriptor on null
(wrapped with the field name on failure), and it succeeds exactly when the
field's own descriptor accepts null — for every field descriptor, field
name and input mapping without that key. -/
theorem c9_missing_field_binds_null :
    ∀ (entries : List (String × PyVal)) (name : String) (fty : Ty),
      entries.lookup name = Option.none →
      (bindOneField fty (.dict entries) name
          = match bindField fty PyVal.none with
            | .ok v => .ok v
            | .error e => .error (.fieldFailed name e))
      ∧ (∀ v, bindOneField fty (.dict entries) name = .ok v
          ↔ bindField fty PyVal.none = .ok v) := by
  intro entries name fty h
  have hget : pyGetE (.dict entries) name = .ok PyVal.none := by
    simp [pyGetE, h]
  constructor
  · simp only [bindOneField, hget]
  · intro v
    simp only [bindOneField, hget]
    cases hb : bindField fty PyVal.none <;> simp

/-- Witness for C9: a missing `Optional[bool]` field binds to null. -/
theorem c9_missing_field_binds_null_witness :
    bindOneField (.union [.prim .boolP, .prim .noneP]) (.dict []) "f" = .ok PyVal.none :=
  ((c9_missing_field_binds_null [] "f" (.union [.prim .boolP, .prim .noneP]) rfl).2
      PyVal.none).mpr
    (by simp [bindField, bindUnion, unionGo1, isPrimTy, unionPhase2, sortedByPriority,
      altPrims, List.insertionSort, List.orderedInsert, primIndex, firstPrimOk,
      bindSimpleType, pyType?, unionHasStr])

theorem bindOneField_congr (fty : Ty) (name : String)
    (entries entries' : List (String × PyVal))
    (h : entries.lookup name = entries'.lookup name) :
    bindOneField fty (.dict entries) name = bindOneField fty (.dict entries') name := by
  simp only [bindOneField, pyGetE, h]

theorem objFields_congr (fields : List (String × Ty))
    (entries entries' : List (String × PyVal))
    (h : ∀ name ∈ fields.map Prod.fst, entries.lookup name = entries'.lookup name) :
    objFields fields (.dict entries) = objFields fields (.dict entries') := by
  induction fields with
  | nil => simp [objFields]
  | cons f rest ih =>
    obtain ⟨name, fty⟩ := f
    simp only [objFields]
    rw [bindOneField_congr fty name entries entries' (h name (by simp))]
    rw [ih (fun n hn => h n (by simp [hn]))]

theorem objFields_keys (fields : List (String × Ty)) (d : PyVal)
    (out : List (String × PyVal)) (h : objFields fields d = .ok out) :
    out.map Prod.fst = fields.map Prod.fst := by
  induction fields generalizing out with
  | nil =>
    simp only [objFields] at h
    cases h
    rfl
  | cons f rest ih =>
    obtain ⟨name, fty⟩ := f
    simp only [objFields] at h
    cases h1 : bindOneField fty d name with
    | error e => rw [h1] at h; cases h
    | ok v =>
      rw [h1] at h
      cases h2 : objFields rest d with
      | error e => rw [h2] at h; cases h
      | ok kw =>
        rw [h2] at h
        cases h
        simp [ih kw h2]

/-- C10: input-mapping entries whose keys are not declared field names are
silently ignored: the bound result depends only on the entries at declared
field names (first conjunct), a successfully bound instance carries
exactly the declared fields, so extra keys never appear on it (second
conjunct), and an input with an extra key binds without error (third
conjunct). -/
theorem c10_extra_keys_ignored :
    (∀ (fields : List (String × Ty)) (entries entries' : List (String × PyVal)),
        (∀ name ∈ fields.map Prod.fst, entries.lookup name = entries'.lookup name) →
        bindClass (.obj fields) (.dict entries) = bindClass (.obj fields) (.dict entries'))
    ∧ (∀ (fields : List (String × Ty)) (entries : List (String × PyVal))
          (out : List (String × PyVal)),
        bindClass (.obj fields) (.dict entries) = .ok (.obj out) →
        out.map Prod.fst = fields.map Prod.fst)
    ∧ bindClass (.obj [("f", .prim .intP)]) (.dict [("f", .int 1), ("extra", .str "x")])
        = .ok (.obj [("f", .int 1)]) := by
  refine ⟨?_, ?_, ?_⟩
  · intro fields entries entries' h
    simp only [bindClass]
    rw [objFields_congr fields entries entries' h]
  · intro fields entries out h
    simp only [bindClass] at h
    cases h2 : objFields fields (.dict entries) with
    | error e => rw [h2] at h; cases h
    | ok kw =>
      rw [h2] at h
      injection h with h3
      injection h3 with h4
      subst h4
      exact objFields_keys fields _ _ h2
  · simp [bindClass, objFields, bindOneField, pyGetE, List.lookup, bindField,
      bindSimpleType, pyType?]

/-- Witness for C10: adding an undeclared key leaves the bound result
unchanged. -/
theorem c10_extra_keys_ignored_witness :
    bindClass (.obj [("f", .prim .intP)]) (.dict [("f", .int 1)])
      = bindClass (.obj [("f", .prim .intP)]) (.dict [("f", .int 1), ("zzz", .int 9)]) :=
  c10_extra_keys_ignored.1 [("f", .prim .intP)] _ _
    (by
      intro name hn
      simp only [List.map_cons, List.map_nil, List.mem_singleton] at hn
      subst hn
      rfl)
